import Mathlib

/-!
# Verification of the Unify-Data converters

Shallow embedding of `src/main.py` of the Unify-Data repository.

The program operates on in-memory JSON documents (Python dicts, lists,
strings, ints, bools, None).  We model JSON values by the inductive type
`JVal`; a Python dict is an association list of string keys (unique keys,
insertion-ordered, which is exactly how the converters build and read them).

Two embeddings are used:

* the plain value model (`JVal`), in which `json.loads(json.dumps(x))` is the
  identity (it rebuilds an equal value), used for all functional claims;
* a provenance-tagged model (`TVal`), in which every mutable container
  (list/dict) carries a `Nat` tag standing for its Python object identity,
  used for the aliasing claims: a value passed through unchanged keeps its
  tag, a container freshly allocated by a converter gets a tag that is fresh
  with respect to the input.  Two containers alias (mutating one mutates the
  other) exactly when they carry the same tag.
-/

/-- A JSON value: Python `None`, `bool`, `int`, `str`, `list`, `dict`. -/
inductive JVal where
  | null
  | bool (b : Bool)
  | int (n : Int)
  | str (s : String)
  | arr (xs : List JVal)
  | obj (fs : List (String × JVal))

/-- Python `d.get(k)` / `k in d` on a dict modelled as an association list:
first (and on a genuine dict, only) binding of the key. -/
def pyGet (d : List (String × JVal)) (k : String) : Option JVal :=
  (d.find? (fun p => p.1 = k)).map (fun p => p.2)

/-- Python `d.get(k, dflt)`. -/
def pyGetD (d : List (String × JVal)) (k : String) (dflt : JVal) : JVal :=
  (pyGet d k).getD dflt

/-- Python `d[k] = v` on a dict: replace the value of an existing key in
place (keeping its position), otherwise append the new binding. -/
def setKey (d : List (String × JVal)) (k : String) (v : JVal) :
    List (String × JVal) :=
  match d with
  | [] => [(k, v)]
  | (k', v') :: rest =>
      if k' = k then (k', v) :: rest else (k', v') :: setKey rest k v

/-- One character of Python ASCII whitespace (stripped by `int(...)`). -/
def isPyWS (c : Char) : Bool :=
  c = ' ' || (9 ≤ c.toNat && c.toNat ≤ 13)

/-- Strip leading and trailing whitespace, as `int(...)` does. -/
def pyStrip (cs : List Char) : List Char :=
  ((cs.dropWhile isPyWS).reverse.dropWhile isPyWS).reverse

/-- Digits of an integer literal after the first digit: Python 3 allows a
single underscore between two digits (`int("1_0") = 10`), nothing else. -/
def pyDigitsAux : List Char → Nat → Option Nat
  | [], acc => some acc
  | '_' :: c :: rest, acc =>
      if c.isDigit then pyDigitsAux rest (acc * 10 + (c.toNat - 48)) else none
  | c :: rest, acc =>
      if c.isDigit then pyDigitsAux rest (acc * 10 + (c.toNat - 48)) else none

/-- A nonempty run of decimal digits (with Python's underscore rule). -/
def pyDigits (cs : List Char) : Option Nat :=
  match cs with
  | [] => none
  | c :: rest =>
      if c.isDigit then pyDigitsAux rest (c.toNat - 48) else none

/-- Python `int(s)` on a string, for ASCII input: optional surrounding
whitespace, optional sign, then digits.  `none` models the `ValueError`
that `int` raises on anything else. -/
def pyInt (s : String) : Option Int :=
  match pyStrip s.toList with
  | '+' :: rest => (pyDigits rest).map (fun n => (n : Int))
  | '-' :: rest => (pyDigits rest).map (fun n => -(n : Int))
  | cs => (pyDigits cs).map (fun n => (n : Int))

/-- Python `s.lower()` (ASCII model). -/
def pyLower (s : String) : String :=
  String.mk (s.data.map Char.toLower)

/-- Python `s.split(":")` over the character list: split at every colon,
keeping empty parts (`"".split(":") == [""]`, `"a::b".split(":") ==
["a", "", "b"]`). -/
def splitColonChars : List Char → List (List Char)
  | [] => [[]]
  | c :: rest =>
      match splitColonChars rest with
      | [] => [[]]
      | p :: ps => if c = ':' then [] :: p :: ps else (c :: p) :: ps

/-- Python `s.split(":")`. -/
def pySplitColon (s : String) : List String :=
  (splitColonChars s.data).map String.mk

/-- The errors the flattened converter can raise: `formatError` models the
`ValueError` from `int(parts[0])` (the spec's `FormatError`), carrying the
offending substring; `attributeError` models the `AttributeError` raised by
`item_str.split(':')` when the element is not a string. -/
inductive PyErr where
  | formatError (s : String)
  | attributeError

/-- The `for item_str in flattened_data['items']` loop of
`convert_flattened_to_unified` (src/main.py lines 87-96): split each element
on `:`; with exactly 3 parts build `{id, title, active}`, with any other
count skip the element; `int` failure raises, and `.split` on a non-string
raises. -/
def processItems : List JVal → Except PyErr (List JVal)
  | [] => .ok []
  | x :: rest =>
      match x with
      | .str s =>
          let parts := pySplitColon s
          if parts.length = 3 then
            match pyInt (parts.getD 0 "") with
            | none => .error (.formatError (parts.getD 0 ""))
            | some n =>
                (processItems rest).map
                  (fun tl =>
                    .obj [("id", .int n), ("title", .str (parts.getD 1 "")),
                          ("active",
                           .bool (pyLower (parts.getD 2 "") = "true"))] :: tl)
          else processItems rest
      | _ => .error .attributeError

/-- `json.loads(json.dumps(v))`: rebuilds the value structurally (on JSON
values it returns an equal value; object identity is modelled in the tagged
embedding below). -/
def deepCopy : JVal → JVal
  | .null => .null
  | .bool b => .bool b
  | .int n => .int n
  | .str s => .str s
  | .arr xs => .arr (xs.attach.map (fun x => deepCopy x.1))
  | .obj fs => .obj (fs.attach.map (fun p => (p.1.1, deepCopy p.1.2)))
decreasing_by
  · have := List.sizeOf_lt_of_mem x.2
    simp only [JVal.arr.sizeOf_spec]
    omega
  · have h1 := List.sizeOf_lt_of_mem p.2
    obtain ⟨⟨a, b⟩, hp⟩ := p
    simp only [Prod.mk.sizeOf_spec, JVal.obj.sizeOf_spec] at h1 ⊢
    omega

/-- Deep copy of a whole dict, entry by entry. -/
def deepCopyFields (d : List (String × JVal)) : List (String × JVal) :=
  d.map (fun p => (p.1, deepCopy p.2))

/-- `convert_nested_to_unified` (src/main.py lines 41-55): deep-copy the
input, then if the copy has a dict-valued key `metadata`, set its `format`
entry to `"unified"` (in place, so the outer dict keeps the same binding
position). -/
def convert_nested_to_unified (d : List (String × JVal)) :
    List (String × JVal) :=
  let unified := deepCopyFields d
  match pyGet unified "metadata" with
  | some (.obj m) =>
      setKey unified "metadata" (.obj (setKey m "format" (.str "unified")))
  | _ => unified

/-- `convert_flattened_to_unified` (src/main.py lines 58-98): rebuild the
nested record from prefixed scalar fields, defaulting missing fields, and
decode the `items` strings; errors from the items loop abort the call. -/
def convert_flattened_to_unified (d : List (String × JVal)) :
    Except PyErr (List (String × JVal)) :=
  let message := pyGetD d "message" (.str "")
  let timestamp := pyGetD d "timestamp" (.str "")
  let user : JVal := .obj
    [("id", (pyGet d "user_id").getD .null),
     ("name", pyGetD d "user_name" (.str "")),
     ("email", pyGetD d "user_email" (.str ""))]
  let metadata : JVal := .obj
    [("version", pyGetD d "metadata_version" (.str "")),
     ("format", .str "unified"),
     ("encoding", pyGetD d "metadata_encoding" (.str ""))]
  let itemsIn : List JVal :=
    match pyGet d "items" with
    | some (.arr xs) => xs
    | _ => []
  (processItems itemsIn).map
    (fun items =>
      [("message", message), ("timestamp", timestamp), ("user", user),
       ("metadata", metadata), ("items", .arr items)])

/-!
## Provenance-tagged embedding

Same converters, over values whose mutable containers (lists and dicts)
carry a `Nat` tag modelling Python object identity.  A value the code passes
through unchanged keeps its tags; a container the converter allocates itself
gets the tag `n` supplied to the call, which the theorems take fresh
(strictly above every tag of the input).  Output and input share a mutable
container exactly when a tag occurs in both.  Distinctness of the
converter's own allocations is not modelled (all fresh containers get the
same tag `n`); no claim depends on it.
-/

/-- A JSON value with object-identity tags on its mutable containers. -/
inductive TVal where
  | null
  | bool (b : Bool)
  | int (n : Int)
  | str (s : String)
  | arr (t : Nat) (xs : List TVal)
  | obj (t : Nat) (fs : List (String × TVal))

mutual

/-- All container tags occurring in a tagged value. -/
def tagsT : TVal → List Nat
  | .null => []
  | .bool _ => []
  | .int _ => []
  | .str _ => []
  | .arr t xs => t :: tagsListT xs
  | .obj t fs => t :: tagsFieldsT fs

/-- All container tags occurring in a list of tagged values. -/
def tagsListT : List TVal → List Nat
  | [] => []
  | x :: xs => tagsT x ++ tagsListT xs

/-- All container tags occurring in the values of a dict. -/
def tagsFieldsT : List (String × TVal) → List Nat
  | [] => []
  | (_, v) :: fs => tagsT v ++ tagsFieldsT fs

end

mutual

/-- Rebuild a value with every container freshly allocated (tag `n`):
the effect of `json.loads(json.dumps(v))` on object identity. -/
def retagT (n : Nat) : TVal → TVal
  | .null => .null
  | .bool b => .bool b
  | .int m => .int m
  | .str s => .str s
  | .arr _ xs => .arr n (retagListT n xs)
  | .obj _ fs => .obj n (retagFieldsT n fs)

/-- `retagT` over a list of values. -/
def retagListT (n : Nat) : List TVal → List TVal
  | [] => []
  | x :: xs => retagT n x :: retagListT n xs

/-- `retagT` over the values of a dict. -/
def retagFieldsT (n : Nat) : List (String × TVal) → List (String × TVal)
  | [] => []
  | (k, v) :: fs => (k, retagT n v) :: retagFieldsT n fs

end

/-- `d.get(k)` in the tagged model. -/
def pyGetT (d : List (String × TVal)) (k : String) : Option TVal :=
  (d.find? (fun p => p.1 = k)).map (fun p => p.2)

/-- `d.get(k, dflt)` in the tagged model. -/
def pyGetDT (d : List (String × TVal)) (k : String) (dflt : TVal) : TVal :=
  (pyGetT d k).getD dflt

/-- `d[k] = v` in the tagged model. -/
def setKeyT (d : List (String × TVal)) (k : String) (v : TVal) :
    List (String × TVal) :=
  match d with
  | [] => [(k, v)]
  | (k', v') :: rest =>
      if k' = k then (k', v) :: rest else (k', v') :: setKeyT rest k v

/-- `True` for values that are not mutable containers. -/
def isAtomT : TVal → Bool
  | .arr _ _ => false
  | .obj _ _ => false
  | _ => true

/-- The items loop in the tagged model: each emitted item dict is a fresh
allocation (tag `n`); its fields are freshly built atoms. -/
def processItemsT (n : Nat) : List TVal → Except PyErr (List TVal)
  | [] => .ok []
  | x :: rest =>
      match x with
      | .str s =>
          let parts := pySplitColon s
          if parts.length = 3 then
            match pyInt (parts.getD 0 "") with
            | none => .error (.formatError (parts.getD 0 ""))
            | some m =>
                (processItemsT n rest).map
                  (fun tl =>
                    .obj n [("id", .int m), ("title", .str (parts.getD 1 "")),
                            ("active",
                             .bool (pyLower (parts.getD 2 "") = "true"))] :: tl)
          else processItemsT n rest
      | _ => .error .attributeError

/-- `convert_nested_to_unified` in the tagged model: the JSON round-trip
copy allocates everything fresh, then `metadata.format` is set in place (the
metadata dict keeps its — fresh — identity). -/
def convert_nested_to_unified_tagged (d : List (String × TVal)) (n : Nat) :
    List (String × TVal) :=
  let unified := retagFieldsT n d
  match pyGetT unified "metadata" with
  | some (.obj t m) =>
      setKeyT unified "metadata" (.obj t (setKeyT m "format" (.str "unified")))
  | _ => unified

/-- `convert_flattened_to_unified` in the tagged model: scalar source fields
are passed through unchanged (keeping their identity), while the `user`,
`metadata`, items and `items` containers are fresh allocations. -/
def convert_flattened_to_unified_tagged (d : List (String × TVal)) (n : Nat) :
    Except PyErr (List (String × TVal)) :=
  let message := pyGetDT d "message" (.str "")
  let timestamp := pyGetDT d "timestamp" (.str "")
  let user : TVal := .obj n
    [("id", (pyGetT d "user_id").getD .null),
     ("name", pyGetDT d "user_name" (.str "")),
     ("email", pyGetDT d "user_email" (.str ""))]
  let metadata : TVal := .obj n
    [("version", pyGetDT d "metadata_version" (.str "")),
     ("format", .str "unified"),
     ("encoding", pyGetDT d "metadata_encoding" (.str ""))]
  let itemsIn : List TVal :=
    match pyGetT d "items" with
    | some (.arr _ xs) => xs
    | _ => []
  (processItemsT n itemsIn).map
    (fun items =>
      [("message", message), ("timestamp", timestamp), ("user", user),
       ("metadata", metadata), ("items", .arr n items)])

/-- `true` iff some mutable container tag occurs both in (the values of)
dict `a` and in dict `b`: the two records share a mutable container. -/
def sharesTagB (a b : List (String × TVal)) : Bool :=
  (tagsFieldsT a).any (fun t => (tagsFieldsT b).contains t)

/-- An item string whose colon-split does not have exactly 3 parts: the
shape the items loop silently skips. -/
def malformedShape : JVal → Bool
  | .str s => (pySplitColon s).length != 3
  | _ => false

/-- `true` exactly for string values. -/
def isStrB : JVal → Bool
  | .str _ => true
  | _ => false

/-- The seven scalar source keys the flattened converter passes through. -/
def scalarKeysT : List String :=
  ["message", "timestamp", "user_id", "user_name", "user_email",
   "metadata_version", "metadata_encoding"]

/-! ## Lemmas about the value model -/

/-- The JSON round-trip copy returns an equal value. -/
theorem deepCopy_eq : ∀ v : JVal, deepCopy v = v
  | .null => by rw [deepCopy]
  | .bool b => by rw [deepCopy]
  | .int n => by rw [deepCopy]
  | .str s => by rw [deepCopy]
  | .arr xs => by
      rw [deepCopy]
      have h2 : xs.attach.map (fun x => deepCopy x.1) =
          xs.attach.map (fun x => x.1) :=
        List.map_congr_left (fun x _ => deepCopy_eq x.1)
      have h3 : xs.attach.map (fun x => (x.1 : JVal)) = xs :=
        List.attach_map_subtype_val xs
      rw [h2]
      exact congrArg JVal.arr h3
  | .obj fs => by
      rw [deepCopy]
      have h2 : fs.attach.map (fun p => (p.1.1, deepCopy p.1.2)) =
          fs.attach.map (fun p => p.1) :=
        List.map_congr_left (fun p _ => by rw [deepCopy_eq p.1.2])
      have h3 : fs.attach.map (fun p => (p.1 : String × JVal)) = fs :=
        List.attach_map_subtype_val fs
      rw [h2]
      exact congrArg JVal.obj h3
decreasing_by
  · have := List.sizeOf_lt_of_mem x.2
    simp only [JVal.arr.sizeOf_spec]
    omega
  · have h1 := List.sizeOf_lt_of_mem p.2
    obtain ⟨⟨a, b⟩, hp⟩ := p
    simp only [Prod.mk.sizeOf_spec, JVal.obj.sizeOf_spec] at h1 ⊢
    omega

/-- Deep-copying a dict returns an equal dict. -/
theorem deepCopyFields_eq (d : List (String × JVal)) : deepCopyFields d = d := by
  unfold deepCopyFields
  have h : ∀ p ∈ d, (p.1, deepCopy p.2) = p := fun p _ => by
    rw [deepCopy_eq]
  rw [List.map_congr_left h, List.map_id']

/-- Looking up the key just set yields the value just set. -/
theorem pyGet_setKey_self (d : List (String × JVal)) (k : String) (v : JVal) :
    pyGet (setKey d k v) k = some v := by
  induction d with
  | nil => simp [setKey, pyGet]
  | cons p rest ih =>
      obtain ⟨k', v'⟩ := p
      by_cases h : k' = k
      · subst h
        simp [setKey, pyGet]
      · simp only [setKey, if_neg h]
        simpa [pyGet, List.find?, h] using ih

/-- Setting the same key twice keeps only the second value. -/
theorem setKey_setKey_self (d : List (String × JVal)) (k : String)
    (v v' : JVal) : setKey (setKey d k v) k v' = setKey d k v' := by
  induction d with
  | nil => simp [setKey]
  | cons p rest ih =>
      obtain ⟨k', v''⟩ := p
      by_cases h : k' = k
      · subst h
        simp [setKey]
      · simp [setKey, h, ih]

/-- `convert_nested_to_unified` with the round-trip copy evaluated away. -/
theorem convert_nested_eq (d : List (String × JVal)) :
    convert_nested_to_unified d =
      match pyGet d "metadata" with
      | some (.obj m) =>
          setKey d "metadata" (.obj (setKey m "format" (.str "unified")))
      | _ => d := by
  unfold convert_nested_to_unified
  rw [deepCopyFields_eq]

/-- `convert_nested_to_unified` when `metadata` is a dict. -/
theorem convert_nested_eq_obj (d m : List (String × JVal))
    (hm : pyGet d "metadata" = some (.obj m)) :
    convert_nested_to_unified d =
      setKey d "metadata" (.obj (setKey m "format" (.str "unified"))) := by
  rw [convert_nested_eq, hm]

/-- **C2**: for every input mapping `r`, `convert_nested_to_unified r` equals
a deep copy of `r` in which, when `r` has a dict-valued key `metadata`, the
`format` entry of that dict is set to `"unified"`; when `metadata` is absent
or not a dict, the result is exactly the deep copy of `r`, with no error and
no `format` field created (in this total model the deep copy is `r` itself,
by `deepCopy_eq`). -/
theorem nested_converter_copy_and_mark (d : List (String × JVal)) :
    (∀ m : List (String × JVal),
        pyGet d "metadata" = some (.obj m) →
        convert_nested_to_unified d =
          setKey d "metadata" (.obj (setKey m "format" (.str "unified")))) ∧
    ((∀ m : List (String × JVal), pyGet d "metadata" ≠ some (.obj m)) →
        convert_nested_to_unified d = d) := by
  constructor
  · intro m hm
    exact convert_nested_eq_obj d m hm
  · intro h
    rw [convert_nested_eq]
    cases hg : pyGet d "metadata" with
    | none => rfl
    | some v =>
        cases v with
        | null => rfl
        | bool b => rfl
        | int n => rfl
        | str s => rfl
        | arr xs => rfl
        | obj m => exact absurd hg (h m)

/-- Witness for C2: a record with a dict `metadata` gets `format` set, a
record without `metadata` is returned unchanged. -/
theorem nested_converter_copy_and_mark_witness :
    convert_nested_to_unified
        [("metadata", JVal.obj [("format", JVal.str "old")]),
         ("message", JVal.str "hi")] =
      [("metadata", JVal.obj [("format", JVal.str "unified")]),
       ("message", JVal.str "hi")] ∧
    convert_nested_to_unified [("message", JVal.str "hi")] =
      [("message", JVal.str "hi")] :=
  ⟨(nested_converter_copy_and_mark _).1 [("format", JVal.str "old")] rfl,
   (nested_converter_copy_and_mark _).2 (fun _ h => Option.noConfusion h)⟩

/-- **C4**: on inputs with a dict-valued `metadata`, the nested converter is
idempotent, and the result's `metadata.format` is `"unified"` whatever the
original `format` value was. -/
theorem nested_converter_idempotent (d m : List (String × JVal))
    (hm : pyGet d "metadata" = some (.obj m)) :
    convert_nested_to_unified (convert_nested_to_unified d) =
      convert_nested_to_unified d ∧
    ∃ m', pyGet (convert_nested_to_unified d) "metadata" = some (.obj m') ∧
      pyGet m' "format" = some (.str "unified") := by
  have h1 : convert_nested_to_unified d =
      setKey d "metadata" (.obj (setKey m "format" (.str "unified"))) :=
    convert_nested_eq_obj d m hm
  have h2 : pyGet (convert_nested_to_unified d) "metadata" =
      some (.obj (setKey m "format" (.str "unified"))) := by
    rw [h1]
    exact pyGet_setKey_self d "metadata" _
  refine ⟨?_, ⟨_, h2, pyGet_setKey_self m "format" _⟩⟩
  have h3 := convert_nested_eq_obj _ _ h2
  rw [h3, setKey_setKey_self, h1, setKey_setKey_self]

/-- Witness for C4 at a concrete record whose `metadata.format` is `"x"`. -/
theorem nested_converter_idempotent_witness :
    convert_nested_to_unified
        (convert_nested_to_unified
          [("metadata", JVal.obj [("format", JVal.str "x")])]) =
      convert_nested_to_unified
        [("metadata", JVal.obj [("format", JVal.str "x")])] ∧
    ∃ m', pyGet
        (convert_nested_to_unified
          [("metadata", JVal.obj [("format", JVal.str "x")])]) "metadata" =
        some (.obj m') ∧
      pyGet m' "format" = some (.str "unified") :=
  nested_converter_idempotent _ [("format", JVal.str "x")] rfl

/-- **C1**: the concrete flattened record of the spec converts to exactly
the unified record of the spec, with item order preserved. -/
theorem flattened_conversion_concrete :
    convert_flattened_to_unified
        [("message", .str "hi"), ("timestamp", .str "t1"),
         ("user_id", .int 5), ("user_name", .str "Ann"),
         ("user_email", .str "a@x.com"), ("metadata_version", .str "1.0"),
         ("metadata_encoding", .str "utf8"),
         ("items", .arr [.str "1:Task A:true", .str "2:Task B:false"])] =
      .ok [("message", .str "hi"), ("timestamp", .str "t1"),
           ("user", .obj [("id", .int 5), ("name", .str "Ann"),
                          ("email", .str "a@x.com")]),
           ("metadata", .obj [("version", .str "1.0"),
                              ("format", .str "unified"),
                              ("encoding", .str "utf8")]),
           ("items", .arr
             [.obj [("id", .int 1), ("title", .str "Task A"),
                    ("active", .bool true)],
              .obj [("id", .int 2), ("title", .str "Task B"),
                    ("active", .bool false)]])] := rfl

/-- **C7**: the empty flattened record converts without error to the
all-defaults unified record, with `user.id` null. -/
theorem flattened_conversion_empty :
    convert_flattened_to_unified [] =
      .ok [("message", .str ""), ("timestamp", .str ""),
           ("user", .obj [("id", .null), ("name", .str ""),
                          ("email", .str "")]),
           ("metadata", .obj [("version", .str ""),
                              ("format", .str "unified"),
                              ("encoding", .str "")]),
           ("items", .arr [])] := rfl

/-- Unfolding of the items loop at a string element with 3 parts. -/
theorem processItems_cons_three (s : String) (rest : List JVal)
    (h3 : (pySplitColon s).length = 3) :
    processItems (JVal.str s :: rest) =
      match pyInt ((pySplitColon s).getD 0 "") with
      | none => .error (.formatError ((pySplitColon s).getD 0 ""))
      | some n =>
          (processItems rest).map
            (fun tl =>
              .obj [("id", .int n),
                    ("title", .str ((pySplitColon s).getD 1 "")),
                    ("active",
                     .bool (pyLower ((pySplitColon s).getD 2 "") = "true"))]
                :: tl) := by
  simp only [processItems]
  rw [if_pos h3]

/-- Unfolding of the items loop at a string element without 3 parts. -/
theorem processItems_cons_skip (s : String) (rest : List JVal)
    (h3 : (pySplitColon s).length ≠ 3) :
    processItems (JVal.str s :: rest) = processItems rest := by
  simp only [processItems]
  rw [if_neg h3]

/-- Unfolding of the items loop at a non-string element. -/
theorem processItems_cons_nonstr (x : JVal) (rest : List JVal)
    (hx : isStrB x = false) :
    processItems (x :: rest) = .error .attributeError := by
  cases x with
  | str s => simp [isStrB] at hx
  | null => rfl
  | bool b => rfl
  | int n => rfl
  | arr a => rfl
  | obj o => rfl

/-- **C5**: removing from the items sequence every string whose colon-split
does not yield exactly 3 parts leaves the result of the items loop unchanged
— such strings contribute no element and raise no error; concretely, input
`items: ["bad:item"]` converts to output `items: []` with no error. -/
theorem malformed_items_dropped :
    (∀ xs : List JVal,
        processItems (xs.filter (fun x => !(malformedShape x))) =
          processItems xs) ∧
    convert_flattened_to_unified [("items", JVal.arr [JVal.str "bad:item"])] =
      .ok [("message", .str ""), ("timestamp", .str ""),
           ("user", .obj [("id", .null), ("name", .str ""),
                          ("email", .str "")]),
           ("metadata", .obj [("version", .str ""),
                              ("format", .str "unified"),
                              ("encoding", .str "")]),
           ("items", .arr [])] := by
  constructor
  · intro xs
    induction xs with
    | nil => rfl
    | cons x rest ih =>
        cases x with
        | str s =>
            by_cases h3 : (pySplitColon s).length = 3
            · have hms : (!(malformedShape (JVal.str s))) = true := by
                simp [malformedShape, h3]
              rw [@List.filter_cons_of_pos JVal
                    (fun x => !(malformedShape x)) (JVal.str s) rest hms]
              rw [processItems_cons_three s _ h3,
                  processItems_cons_three s _ h3]
              cases hpi : pyInt ((pySplitColon s).getD 0 "") with
              | none => rfl
              | some n => rw [ih]
            · have hms : ¬ ((!(malformedShape (JVal.str s))) = true) := by
                simp [malformedShape, h3]
              rw [@List.filter_cons_of_neg JVal
                    (fun x => !(malformedShape x)) (JVal.str s) rest hms]
              rw [processItems_cons_skip s _ h3, ih]
        | null =>
            rw [@List.filter_cons_of_pos JVal
                  (fun x => !(malformedShape x)) JVal.null rest rfl,
                processItems_cons_nonstr JVal.null
                  (rest.filter (fun x => !(malformedShape x))) rfl,
                processItems_cons_nonstr JVal.null rest rfl]
        | bool b =>
            rw [@List.filter_cons_of_pos JVal
                  (fun x => !(malformedShape x)) (JVal.bool b) rest rfl,
                processItems_cons_nonstr (JVal.bool b)
                  (rest.filter (fun x => !(malformedShape x))) rfl,
                processItems_cons_nonstr (JVal.bool b) rest rfl]
        | int n =>
            rw [@List.filter_cons_of_pos JVal
                  (fun x => !(malformedShape x)) (JVal.int n) rest rfl,
                processItems_cons_nonstr (JVal.int n)
                  (rest.filter (fun x => !(malformedShape x))) rfl,
                processItems_cons_nonstr (JVal.int n) rest rfl]
        | arr a =>
            rw [@List.filter_cons_of_pos JVal
                  (fun x => !(malformedShape x)) (JVal.arr a) rest rfl,
                processItems_cons_nonstr (JVal.arr a)
                  (rest.filter (fun x => !(malformedShape x))) rfl,
                processItems_cons_nonstr (JVal.arr a) rest rfl]
        | obj o =>
            rw [@List.filter_cons_of_pos JVal
                  (fun x => !(malformedShape x)) (JVal.obj o) rest rfl,
                processItems_cons_nonstr (JVal.obj o)
                  (rest.filter (fun x => !(malformedShape x))) rfl,
                processItems_cons_nonstr (JVal.obj o) rest rfl]
  · rfl

/-- `convert_flattened_to_unified` with its `let`s resolved. -/
theorem convert_flattened_eq (d : List (String × JVal)) :
    convert_flattened_to_unified d =
      (processItems
          (match pyGet d "items" with
           | some (.arr xs) => xs
           | _ => [])).map
        (fun items =>
          [("message", pyGetD d "message" (.str "")),
           ("timestamp", pyGetD d "timestamp" (.str "")),
           ("user", .obj
             [("id", (pyGet d "user_id").getD .null),
              ("name", pyGetD d "user_name" (.str "")),
              ("email", pyGetD d "user_email" (.str ""))]),
           ("metadata", .obj
             [("version", pyGetD d "metadata_version" (.str "")),
              ("format", .str "unified"),
              ("encoding", pyGetD d "metadata_encoding" (.str ""))]),
           ("items", .arr items)]) := rfl

/-- An items-loop failure aborts the whole conversion with that error. -/
theorem convert_flattened_error_of_items (d : List (String × JVal))
    (xs : List JVal) (hx : pyGet d "items" = some (.arr xs)) (e : PyErr)
    (he : processItems xs = .error e) :
    convert_flattened_to_unified d = .error e := by
  rw [convert_flattened_eq, hx, he]
  rfl

/-- A member string with 3 parts and a non-integer first part makes the
items loop fail (with whatever error is reached first). -/
theorem processItems_error_of_bad_id :
    ∀ (xs : List JVal) (s : String), JVal.str s ∈ xs →
      (pySplitColon s).length = 3 →
      pyInt ((pySplitColon s).getD 0 "") = none →
      ∃ e, processItems xs = .error e := by
  intro xs
  induction xs with
  | nil =>
      intro s hs _ _
      exact absurd hs (List.not_mem_nil _)
  | cons x rest ih =>
      intro s hs h3 hbad
      rcases List.mem_cons.mp hs with heq | hmem
      · refine ⟨.formatError ((pySplitColon s).getD 0 ""), ?_⟩
        rw [← heq, processItems_cons_three s rest h3, hbad]
      · obtain ⟨e, he⟩ := ih s hmem h3 hbad
        by_cases hstr : isStrB x = true
        · cases x with
          | str s' =>
              by_cases h3' : (pySplitColon s').length = 3
              · cases hpi : pyInt ((pySplitColon s').getD 0 "") with
                | none =>
                    refine ⟨.formatError ((pySplitColon s').getD 0 ""), ?_⟩
                    rw [processItems_cons_three s' rest h3', hpi]
                | some n =>
                    refine ⟨e, ?_⟩
                    rw [processItems_cons_three s' rest h3', hpi, he]
                    rfl
              · exact ⟨e, by rw [processItems_cons_skip s' rest h3', he]⟩
          | null => simp [isStrB] at hstr
          | bool b => simp [isStrB] at hstr
          | int n => simp [isStrB] at hstr
          | arr a => simp [isStrB] at hstr
          | obj o => simp [isStrB] at hstr
        · refine ⟨.attributeError, ?_⟩
          rw [processItems_cons_nonstr x rest (Bool.not_eq_true _ ▸
            Bool.of_not_eq_true hstr)]

/-- When additionally every element is a string, that failure is the
`FormatError` from `int(...)`. -/
theorem processItems_formatError_of_bad_id :
    ∀ (xs : List JVal), (∀ x ∈ xs, ∃ t, x = JVal.str t) →
      ∀ s : String, JVal.str s ∈ xs →
      (pySplitColon s).length = 3 →
      pyInt ((pySplitColon s).getD 0 "") = none →
      ∃ q, processItems xs = .error (.formatError q) := by
  intro xs
  induction xs with
  | nil =>
      intro _ s hs _ _
      exact absurd hs (List.not_mem_nil _)
  | cons x rest ih =>
      intro hall s hs h3 hbad
      rcases List.mem_cons.mp hs with heq | hmem
      · refine ⟨(pySplitColon s).getD 0 "", ?_⟩
        rw [← heq, processItems_cons_three s rest h3, hbad]
      · obtain ⟨q, hq⟩ := ih (fun x hx => hall x (List.mem_cons_of_mem _ hx))
          s hmem h3 hbad
        obtain ⟨t, ht⟩ := hall x (List.mem_cons_self x rest)
        subst ht
        by_cases h3' : (pySplitColon t).length = 3
        · cases hpi : pyInt ((pySplitColon t).getD 0 "") with
          | none =>
              refine ⟨(pySplitColon t).getD 0 "", ?_⟩
              rw [processItems_cons_three t rest h3', hpi]
          | some n =>
              refine ⟨q, ?_⟩
              rw [processItems_cons_three t rest h3', hpi, hq]
              rfl
        · exact ⟨q, by rw [processItems_cons_skip t rest h3', hq]⟩

/-- **C6**: an items element that is a string with exactly 3 colon-separated
parts whose first part is not a valid integer makes the whole conversion
call fail, the error propagating to the caller; when the items elements are
all strings the error is the `FormatError` (`ValueError`) from `int(...)`;
concretely, `items: ["x:Task:true"]` fails with `FormatError "x"`. -/
theorem invalid_item_id_raises (d : List (String × JVal)) (xs : List JVal)
    (s : String)
    (hx : pyGet d "items" = some (.arr xs))
    (hs : JVal.str s ∈ xs)
    (h3 : (pySplitColon s).length = 3)
    (hbad : pyInt ((pySplitColon s).getD 0 "") = none) :
    (∃ e, convert_flattened_to_unified d = .error e) ∧
    ((∀ x ∈ xs, ∃ t, x = JVal.str t) →
      ∃ q, convert_flattened_to_unified d = .error (.formatError q)) := by
  constructor
  · obtain ⟨e, he⟩ := processItems_error_of_bad_id xs s hs h3 hbad
    exact ⟨e, convert_flattened_error_of_items d xs hx e he⟩
  · intro hall
    obtain ⟨q, hq⟩ := processItems_formatError_of_bad_id xs hall s hs h3 hbad
    exact ⟨q, convert_flattened_error_of_items d xs hx _ hq⟩

/-- Witness for C6 at the spec's concrete input `items: ["x:Task:true"]`. -/
theorem invalid_item_id_raises_witness :
    ∃ q, convert_flattened_to_unified
        [("items", JVal.arr [JVal.str "x:Task:true"])] =
      .error (.formatError q) :=
  (invalid_item_id_raises [("items", JVal.arr [JVal.str "x:Task:true"])]
      [JVal.str "x:Task:true"] "x:Task:true" rfl
      (List.mem_cons_self _ _) rfl rfl).2
    (fun x hx => ⟨"x:Task:true", by simpa using (List.mem_singleton.mp hx)⟩)

/-- A non-string items element makes the items loop fail. -/
theorem processItems_error_of_nonstring :
    ∀ (xs : List JVal) (x : JVal), x ∈ xs → isStrB x = false →
      ∃ e, processItems xs = .error e := by
  intro xs
  induction xs with
  | nil =>
      intro x hx _
      exact absurd hx (List.not_mem_nil _)
  | cons y rest ih =>
      intro x hx hns
      rcases List.mem_cons.mp hx with heq | hmem
      · refine ⟨.attributeError, ?_⟩
        subst heq
        exact processItems_cons_nonstr x rest hns
      · obtain ⟨e, he⟩ := ih x hmem hns
        cases y with
        | str s' =>
            by_cases h3' : (pySplitColon s').length = 3
            · cases hpi : pyInt ((pySplitColon s').getD 0 "") with
              | none =>
                  refine ⟨.formatError ((pySplitColon s').getD 0 ""), ?_⟩
                  rw [processItems_cons_three s' rest h3', hpi]
              | some n =>
                  refine ⟨e, ?_⟩
                  rw [processItems_cons_three s' rest h3', hpi, he]
                  rfl
            · exact ⟨e, by rw [processItems_cons_skip s' rest h3', he]⟩
        | null => exact ⟨.attributeError, processItems_cons_nonstr _ rest rfl⟩
        | bool b => exact ⟨.attributeError, processItems_cons_nonstr _ rest rfl⟩
        | int n => exact ⟨.attributeError, processItems_cons_nonstr _ rest rfl⟩
        | arr a => exact ⟨.attributeError, processItems_cons_nonstr _ rest rfl⟩
        | obj o => exact ⟨.attributeError, processItems_cons_nonstr _ rest rfl⟩

/-- Counterexample to **C8** as stated: for the flattened input
`{items: [1]}`, whose items sequence holds the non-string element `1`, the
conversion does not succeed — the code calls `.split(':')` on the element
with no string check, raising `AttributeError`. -/
theorem nonstring_item_cex :
    convert_flattened_to_unified [("items", JVal.arr [JVal.int 1])] =
      .error .attributeError := rfl

/-- **C8 (amended)**: a non-string element in the items sequence makes
`convert_flattened_to_unified` fail with an error rather than being skipped;
when reached first it is the `AttributeError` from calling `.split(':')` on
a non-string, as in the concrete run of `nonstring_item_cex`. -/
theorem nonstring_item_raises (d : List (String × JVal)) (xs : List JVal)
    (x : JVal) (hx : pyGet d "items" = some (.arr xs)) (hm : x ∈ xs)
    (hns : isStrB x = false) :
    ∃ e, convert_flattened_to_unified d = .error e := by
  obtain ⟨e, he⟩ := processItems_error_of_nonstring xs x hm hns
  exact ⟨e, convert_flattened_error_of_items d xs hx e he⟩

/-- Witness for the amended C8 at the concrete input `items: [1]`. -/
theorem nonstring_item_raises_witness :
    ∃ e, convert_flattened_to_unified [("items", JVal.arr [JVal.int 1])] =
      .error e :=
  nonstring_item_raises [("items", JVal.arr [JVal.int 1])] [JVal.int 1]
    (JVal.int 1) rfl (List.mem_cons_self _ _) rfl

/-- **C9**: whenever `convert_flattened_to_unified` succeeds, the output has
exactly the top-level keys `message, timestamp, user, metadata, items` in
order; `user` is a dict with exactly the keys `id, name, email`; `metadata`
is a dict with exactly the keys `version, format, encoding` and with
`format = "unified"`; and `items` is a sequence. -/
theorem flattened_output_shape (d : List (String × JVal))
    (out : List (String × JVal))
    (h : convert_flattened_to_unified d = .ok out) :
    out.map Prod.fst = ["message", "timestamp", "user", "metadata", "items"] ∧
    (∃ u, pyGet out "user" = some (.obj u) ∧
        u.map Prod.fst = ["id", "name", "email"]) ∧
    (∃ md, pyGet out "metadata" = some (.obj md) ∧
        md.map Prod.fst = ["version", "format", "encoding"] ∧
        pyGet md "format" = some (.str "unified")) ∧
    (∃ xs, pyGet out "items" = some (.arr xs)) := by
  rw [convert_flattened_eq] at h
  cases hq : processItems
      (match pyGet d "items" with
       | some (.arr xs) => xs
       | _ => []) with
  | error e =>
      rw [hq] at h
      exact absurd h (by simp [Except.map])
  | ok items =>
      rw [hq] at h
      simp only [Except.map] at h
      have hout := (Except.ok.injEq _ _).mp h
      rw [← hout]
      refine ⟨rfl, ⟨_, rfl, rfl⟩, ⟨_, rfl, rfl, rfl⟩, ⟨items, rfl⟩⟩

/-- Witness for C9 at the empty input record. -/
theorem flattened_output_shape_witness :
    let out : List (String × JVal) :=
      [("message", .str ""), ("timestamp", .str ""),
       ("user", .obj [("id", .null), ("name", .str ""), ("email", .str "")]),
       ("metadata", .obj [("version", .str ""), ("format", .str "unified"),
                          ("encoding", .str "")]),
       ("items", .arr [])]
    out.map Prod.fst = ["message", "timestamp", "user", "metadata", "items"] ∧
    (∃ u, pyGet out "user" = some (.obj u) ∧
        u.map Prod.fst = ["id", "name", "email"]) ∧
    (∃ md, pyGet out "metadata" = some (.obj md) ∧
        md.map Prod.fst = ["version", "format", "encoding"] ∧
        pyGet md "format" = some (.str "unified")) ∧
    (∃ xs, pyGet out "items" = some (.arr xs)) :=
  flattened_output_shape [] _ rfl

/-- **C10**: the output of `convert_flattened_to_unified` depends only on
the values of the eight keys `message, timestamp, user_id, user_name,
user_email, metadata_version, metadata_encoding, items`: two inputs that
agree on those lookups (present with equal values, or absent in both)
convert to equal results, whatever other keys they carry. -/
theorem flattened_noninterference (d₁ d₂ : List (String × JVal))
    (h₁ : pyGet d₁ "message" = pyGet d₂ "message")
    (h₂ : pyGet d₁ "timestamp" = pyGet d₂ "timestamp")
    (h₃ : pyGet d₁ "user_id" = pyGet d₂ "user_id")
    (h₄ : pyGet d₁ "user_name" = pyGet d₂ "user_name")
    (h₅ : pyGet d₁ "user_email" = pyGet d₂ "user_email")
    (h₆ : pyGet d₁ "metadata_version" = pyGet d₂ "metadata_version")
    (h₇ : pyGet d₁ "metadata_encoding" = pyGet d₂ "metadata_encoding")
    (h₈ : pyGet d₁ "items" = pyGet d₂ "items") :
    convert_flattened_to_unified d₁ = convert_flattened_to_unified d₂ := by
  rw [convert_flattened_eq d₁, convert_flattened_eq d₂]
  unfold pyGetD
  rw [h₁, h₂, h₃, h₄, h₅, h₆, h₇, h₈]

/-- Witness for C10: the empty record and a record with only an unread key
convert identically. -/
theorem flattened_noninterference_witness :
    convert_flattened_to_unified [] =
      convert_flattened_to_unified [("extra", JVal.bool true)] :=
  flattened_noninterference [] [("extra", JVal.bool true)]
    rfl rfl rfl rfl rfl rfl rfl rfl

mutual

/-- Every tag of a freshly rebuilt value is the fresh tag. -/
theorem tags_retagT (n : Nat) :
    ∀ (v : TVal) (t : Nat), t ∈ tagsT (retagT n v) → t = n
  | .null, t, ht => by simp [retagT, tagsT] at ht
  | .bool b, t, ht => by simp [retagT, tagsT] at ht
  | .int m, t, ht => by simp [retagT, tagsT] at ht
  | .str s, t, ht => by simp [retagT, tagsT] at ht
  | .arr u xs, t, ht => by
      rw [retagT] at ht
      rw [tagsT] at ht
      rcases List.mem_cons.mp ht with h | h
      · exact h
      · exact tags_retagListT n xs t h
  | .obj u fs, t, ht => by
      rw [retagT] at ht
      rw [tagsT] at ht
      rcases List.mem_cons.mp ht with h | h
      · exact h
      · exact tags_retagFieldsT n fs t h

/-- Every tag of a freshly rebuilt value list is the fresh tag. -/
theorem tags_retagListT (n : Nat) :
    ∀ (xs : List TVal) (t : Nat), t ∈ tagsListT (retagListT n xs) → t = n
  | [], t, ht => by simp [retagListT, tagsListT] at ht
  | x :: xs, t, ht => by
      rw [retagListT] at ht
      rw [tagsListT] at ht
      rcases List.mem_append.mp ht with h | h
      · exact tags_retagT n x t h
      · exact tags_retagListT n xs t h

/-- Every tag of a freshly rebuilt dict is the fresh tag. -/
theorem tags_retagFieldsT (n : Nat) :
    ∀ (fs : List (String × TVal)) (t : Nat),
      t ∈ tagsFieldsT (retagFieldsT n fs) → t = n
  | [], t, ht => by simp [retagFieldsT, tagsFieldsT] at ht
  | (k, v) :: fs, t, ht => by
      rw [retagFieldsT] at ht
      rw [tagsFieldsT] at ht
      rcases List.mem_append.mp ht with h | h
      · exact tags_retagT n v t h
      · exact tags_retagFieldsT n fs t h

end

/-- A value looked up in a freshly rebuilt dict carries only the fresh tag. -/
theorem pyGetT_retagFieldsT (n : Nat) (d : List (String × TVal)) (k : String)
    (v : TVal) (h : pyGetT (retagFieldsT n d) k = some v) :
    ∀ t ∈ tagsT v, t = n := by
  induction d with
  | nil => simp [retagFieldsT, pyGetT] at h
  | cons p rest ih =>
      obtain ⟨k', v'⟩ := p
      by_cases hk : k' = k
      · subst hk
        have : v = retagT n v' := by
          simp [retagFieldsT, pyGetT, List.find?] at h
          exact h.symm
        subst this
        exact fun t ht => tags_retagT n v' t ht
      · have hneg : ((fun p => decide (p.1 = k))
            ((k', retagT n v') : String × TVal)) ≠ true := by
          simp [hk]
        rw [retagFieldsT] at h
        rw [pyGetT, List.find?_cons_of_neg (retagFieldsT n rest) hneg] at h
        exact ih h

/-- A tag of `setKeyT d k v` is a tag of `d` or a tag of `v`. -/
theorem tags_setKeyT (d : List (String × TVal)) (k : String) (v : TVal)
    (t : Nat) (ht : t ∈ tagsFieldsT (setKeyT d k v)) :
    t ∈ tagsFieldsT d ∨ t ∈ tagsT v := by
  induction d with
  | nil =>
      rw [setKeyT] at ht
      simp only [tagsFieldsT] at ht
      simp at ht
      exact Or.inr ht
  | cons p rest ih =>
      obtain ⟨k', v'⟩ := p
      by_cases hk : k' = k
      · subst hk
        rw [setKeyT] at ht
        simp only [if_pos rfl] at ht
        simp only [tagsFieldsT] at ht ⊢
        rcases List.mem_append.mp ht with h | h
        · exact Or.inr h
        · exact Or.inl (List.mem_append.mpr (Or.inr h))
      · rw [setKeyT] at ht
        simp only [if_neg hk] at ht
        simp only [tagsFieldsT] at ht ⊢
        rcases List.mem_append.mp ht with h | h
        · exact Or.inl (List.mem_append.mpr (Or.inl h))
        · rcases ih h with h' | h'
          · exact Or.inl (List.mem_append.mpr (Or.inr h'))
          · exact Or.inr h'

/-- Atoms carry no tags. -/
theorem tagsT_isAtomT (v : TVal) (h : isAtomT v = true) : tagsT v = [] := by
  cases v with
  | null => rfl
  | bool b => rfl
  | int m => rfl
  | str s => rfl
  | arr u xs => simp [isAtomT] at h
  | obj u fs => simp [isAtomT] at h

/-- Unfolding of the tagged items loop at a string element with 3 parts. -/
theorem processItemsT_cons_three (n : Nat) (s : String) (rest : List TVal)
    (h3 : (pySplitColon s).length = 3) :
    processItemsT n (TVal.str s :: rest) =
      match pyInt ((pySplitColon s).getD 0 "") with
      | none => .error (.formatError ((pySplitColon s).getD 0 ""))
      | some m =>
          (processItemsT n rest).map
            (fun tl =>
              .obj n [("id", .int m),
                      ("title", .str ((pySplitColon s).getD 1 "")),
                      ("active",
                       .bool (pyLower ((pySplitColon s).getD 2 "") = "true"))]
                :: tl) := by
  simp only [processItemsT]
  rw [if_pos h3]

/-- Unfolding of the tagged items loop at a string without 3 parts. -/
theorem processItemsT_cons_skip (n : Nat) (s : String) (rest : List TVal)
    (h3 : (pySplitColon s).length ≠ 3) :
    processItemsT n (TVal.str s :: rest) = processItemsT n rest := by
  simp only [processItemsT]
  rw [if_neg h3]

/-- Every tag of a successfully decoded items list is the fresh tag. -/
theorem processItemsT_tags (n : Nat) :
    ∀ (xs ys : List TVal), processItemsT n xs = .ok ys →
      ∀ t ∈ tagsListT ys, t = n := by
  intro xs
  induction xs with
  | nil =>
      intro ys h t ht
      rw [processItemsT] at h
      cases h
      simp [tagsListT] at ht
  | cons x rest ih =>
      intro ys h t ht
      cases x with
      | str s =>
          by_cases h3 : (pySplitColon s).length = 3
          · rw [processItemsT_cons_three n s rest h3] at h
            cases hpi : pyInt ((pySplitColon s).getD 0 "") with
            | none =>
                rw [hpi] at h
                exact absurd h (by simp)
            | some m =>
                rw [hpi] at h
                cases hr : processItemsT n rest with
                | error e =>
                    rw [hr] at h
                    exact absurd h (by simp [Except.map])
                | ok tl =>
                    rw [hr] at h
                    simp only [Except.map] at h
                    cases h
                    simp only [tagsListT, tagsT, tagsFieldsT,
                      List.mem_append, List.append_nil, List.mem_cons] at ht
                    rcases ht with ht | ht
                    · rcases ht with ht | ht
                      · exact ht
                      · simp at ht
                    · exact ih tl hr t ht
          · rw [processItemsT_cons_skip n s rest h3] at h
            exact ih ys h t ht
      | null => exact absurd h (by simp [processItemsT])
      | bool b => exact absurd h (by simp [processItemsT])
      | int m => exact absurd h (by simp [processItemsT])
      | arr u a => exact absurd h (by simp [processItemsT])
      | obj u o => exact absurd h (by simp [processItemsT])

/-- Every tag of the tagged nested converter's output is the fresh tag. -/
theorem convert_nested_tagged_tags (d : List (String × TVal)) (n : Nat) :
    ∀ t ∈ tagsFieldsT (convert_nested_to_unified_tagged d n), t = n := by
  intro t ht
  simp only [convert_nested_to_unified_tagged] at ht
  cases hg : pyGetT (retagFieldsT n d) "metadata" with
  | none =>
      rw [hg] at ht
      exact tags_retagFieldsT n d t ht
  | some v =>
      cases v with
      | null =>
          rw [hg] at ht
          exact tags_retagFieldsT n d t ht
      | bool b =>
          rw [hg] at ht
          exact tags_retagFieldsT n d t ht
      | int m =>
          rw [hg] at ht
          exact tags_retagFieldsT n d t ht
      | str s =>
          rw [hg] at ht
          exact tags_retagFieldsT n d t ht
      | arr u xs =>
          rw [hg] at ht
          exact tags_retagFieldsT n d t ht
      | obj u m =>
          rw [hg] at ht
          have hv := pyGetT_retagFieldsT n d "metadata" (.obj u m) hg
          rcases tags_setKeyT (retagFieldsT n d) "metadata"
              (.obj u (setKeyT m "format" (.str "unified"))) t ht with h | h
          · exact tags_retagFieldsT n d t h
          · simp only [tagsT, List.mem_cons] at h
            rcases h with h | h
            · subst h
              exact hv t (by simp [tagsT])
            · rcases tags_setKeyT m "format" (.str "unified") t h with h' | h'
              · refine hv t ?_
                simp only [tagsT, List.mem_cons]
                exact Or.inr h'
              · simp [tagsT] at h'

/-- `convert_flattened_to_unified_tagged` with its `let`s resolved. -/
theorem convert_flattened_tagged_eq (d : List (String × TVal)) (n : Nat) :
    convert_flattened_to_unified_tagged d n =
      (processItemsT n
          (match pyGetT d "items" with
           | some (.arr _ xs) => xs
           | _ => [])).map
        (fun items =>
          [("message", pyGetDT d "message" (.str "")),
           ("timestamp", pyGetDT d "timestamp" (.str "")),
           ("user", .obj n
             [("id", (pyGetT d "user_id").getD .null),
              ("name", pyGetDT d "user_name" (.str "")),
              ("email", pyGetDT d "user_email" (.str ""))]),
           ("metadata", .obj n
             [("version", pyGetDT d "metadata_version" (.str "")),
              ("format", .str "unified"),
              ("encoding", pyGetDT d "metadata_encoding" (.str ""))]),
           ("items", .arr n items)]) := rfl

/-- Every tag of the tagged flattened converter's output is the fresh tag,
provided the seven scalar source fields hold atoms where present. -/
theorem convert_flattened_tagged_tags (d : List (String × TVal)) (n : Nat)
    (hscal : ∀ k ∈ scalarKeysT, ∀ v, pyGetT d k = some v → isAtomT v = true)
    (out : List (String × TVal))
    (h : convert_flattened_to_unified_tagged d n = .ok out) :
    ∀ t ∈ tagsFieldsT out, t = n := by
  have hat : ∀ k ∈ scalarKeysT, ∀ dflt : TVal, isAtomT dflt = true →
      tagsT (pyGetDT d k dflt) = [] := by
    intro k hk dflt hdflt
    unfold pyGetDT
    cases hv : pyGetT d k with
    | none => exact tagsT_isAtomT dflt hdflt
    | some v => exact tagsT_isAtomT v (hscal k hk v hv)
  rw [convert_flattened_tagged_eq] at h
  cases hq : processItemsT n
      (match pyGetT d "items" with
       | some (.arr _ xs) => xs
       | _ => []) with
  | error e =>
      rw [hq] at h
      exact absurd h (by simp [Except.map])
  | ok items =>
      rw [hq] at h
      simp only [Except.map] at h
      cases h
      intro t ht
      have huid : tagsT ((pyGetT d "user_id").getD .null) = [] := by
        cases hv : pyGetT d "user_id" with
        | none => rfl
        | some v => exact tagsT_isAtomT v (hscal "user_id" (by simp [scalarKeysT]) v hv)
      have hitems := processItemsT_tags n _ items hq
      simp only [tagsFieldsT, tagsT, huid,
        hat "message" (by simp [scalarKeysT]) (.str "") rfl,
        hat "timestamp" (by simp [scalarKeysT]) (.str "") rfl,
        hat "user_name" (by simp [scalarKeysT]) (.str "") rfl,
        hat "user_email" (by simp [scalarKeysT]) (.str "") rfl,
        hat "metadata_version" (by simp [scalarKeysT]) (.str "") rfl,
        hat "metadata_encoding" (by simp [scalarKeysT]) (.str "") rfl,
        List.append_nil, List.nil_append, List.mem_cons,
        List.mem_append, List.not_mem_nil, or_false, false_or] at ht
      rcases ht with ht | ht | ht | ht
      · exact ht
      · exact ht
      · exact ht
      · exact hitems t ht

/-- Counterexample to **C3** as stated: for the flattened input
`{user_id: []}` the code passes the list value of `user_id` through by
reference into `user.id`, so the returned record shares a mutable container
(tag 0) with the input — mutating that list mutates both records. -/
theorem converter_aliasing_cex :
    convert_flattened_to_unified_tagged [("user_id", TVal.arr 0 [])] 1 =
      .ok [("message", .str ""), ("timestamp", .str ""),
           ("user", .obj 1 [("id", .arr 0 []), ("name", .str ""),
                            ("email", .str "")]),
           ("metadata", .obj 1 [("version", .str ""),
                                ("format", .str "unified"),
                                ("encoding", .str "")]),
           ("items", .arr 1 [])] ∧
    sharesTagB [("user_id", TVal.arr 0 [])]
      [("message", .str ""), ("timestamp", .str ""),
       ("user", .obj 1 [("id", .arr 0 []), ("name", .str ""),
                        ("email", .str "")]),
       ("metadata", .obj 1 [("version", .str ""),
                            ("format", .str "unified"),
                            ("encoding", .str "")]),
       ("items", .arr 1 [])] = true :=
  ⟨rfl, by simp [sharesTagB, tagsFieldsT, tagsT, tagsListT]⟩

/-- **C3 (amended)**: in the provenance-tagged model (the converters are
pure functions, so the input value itself is never changed), the nested
converter's output never shares a mutable container with its input — the
JSON round-trip allocates everything fresh; the flattened converter's output
shares no mutable container with its input provided the seven scalar source
fields (`message, timestamp, user_id, user_name, user_email,
metadata_version, metadata_encoding`) hold atoms (null/bool/int/str) where
present — when one of them holds a list or dict, that container is passed
through by reference and the output aliases the input, as
`converter_aliasing_cex` shows. -/
theorem converters_no_aliasing_amended :
    (∀ (d : List (String × TVal)) (n : Nat),
        (∀ t ∈ tagsFieldsT d, t < n) →
        ∀ t ∈ tagsFieldsT (convert_nested_to_unified_tagged d n),
          t ∉ tagsFieldsT d) ∧
    (∀ (d : List (String × TVal)) (n : Nat)
        (out : List (String × TVal)),
        (∀ t ∈ tagsFieldsT d, t < n) →
        (∀ k ∈ scalarKeysT, ∀ v, pyGetT d k = some v → isAtomT v = true) →
        convert_flattened_to_unified_tagged d n = .ok out →
        ∀ t ∈ tagsFieldsT out, t ∉ tagsFieldsT d) := by
  constructor
  · intro d n hfresh t ht hmem
    have h1 := convert_nested_tagged_tags d n t ht
    subst h1
    exact Nat.lt_irrefl t (hfresh t hmem)
  · intro d n out hfresh hscal hok t ht hmem
    have h1 := convert_flattened_tagged_tags d n hscal out hok t ht
    subst h1
    exact Nat.lt_irrefl t (hfresh t hmem)

/-- Witness for the amended C3: the fresh tag 1 does not occur among the
input tags, for a nested input holding a dict and for a flattened input
holding a container under an unread key. -/
theorem converters_no_aliasing_amended_witness :
    ((1 : Nat) ∉ tagsFieldsT [("metadata", TVal.obj 0 [])]) ∧
    ((1 : Nat) ∉ tagsFieldsT [("user_id", TVal.int 5),
                              ("extra", TVal.arr 0 [])]) := by
  constructor
  · exact converters_no_aliasing_amended.1 [("metadata", TVal.obj 0 [])] 1
      (by intro t ht; simp [tagsFieldsT, tagsT, tagsListT] at ht; omega) 1
      (by simp [convert_nested_to_unified_tagged, retagFieldsT, retagT,
                pyGetT, List.find?, setKeyT, tagsFieldsT, tagsT])
  · exact converters_no_aliasing_amended.2
      [("user_id", TVal.int 5), ("extra", TVal.arr 0 [])] 1
      [("message", .str ""), ("timestamp", .str ""),
       ("user", .obj 1 [("id", .int 5), ("name", .str ""),
                        ("email", .str "")]),
       ("metadata", .obj 1 [("version", .str ""),
                            ("format", .str "unified"),
                            ("encoding", .str "")]),
       ("items", .arr 1 [])]
      (by intro t ht; simp [tagsFieldsT, tagsT, tagsListT] at ht; omega)
      (by
        intro k hk v hv
        simp only [scalarKeysT, List.mem_cons, List.not_mem_nil,
          or_false] at hk
        rcases hk with rfl | rfl | rfl | rfl | rfl | rfl | rfl <;>
          simp [pyGetT, List.find?] at hv
        subst hv
        rfl)
      rfl 1
      (by simp [tagsFieldsT, tagsT, tagsListT])
